import Mathlib

/-!
A shallow embedding of the search core of `app/movie_service.py`
(MongoDB-DocumentSearchAPI): score normalization (`normalize_scores`),
pipeline construction (`build_pipeline`), the hybrid merge
(`hybrid_search`, lines 101-143) and the top-level dispatch
(`search_documents`).

Modelling conventions:
* Document identities (`ObjectId`) are opaque comparable values, modelled
  as `Nat`.
* Raw floating-point relevance scores are modelled as exact rationals `ℚ`;
  a document field that may be missing is an `Option`.
* Python dicts (keyed by document identity, iterated in insertion order)
  are modelled as association lists together with `dictUpsert`, which has
  exactly the `dict` assignment/update semantics: an existing key keeps
  its position and gets the updated value, a fresh key is appended.
* Python's `sorted(..., key=..., reverse=True)` is a stable descending
  sort; it is modelled by `List.insertionSort` with the relation
  `scoreGe`, which is the (unique) stable sort for that ordering.
* The MongoDB collection is an external collaborator: retrieval is a
  parameter `aggregate : List Stage → List RawDoc`, and
  `search_documents` additionally returns the number of `aggregate`
  calls it performed.
* `raise ValueError("Invalid search type")` (the spec's
  `InvalidModeError`) is modelled with `Except.error`.
-/

namespace MovieService

/-- Document identity (`_id`, an `ObjectId` in MongoDB): an opaque
comparable value. -/
abbrev DocId := Nat

/-- A raw document returned by the store, as consumed by
`movie_service.py` (projection fields plus a relevance score).
`Option` marks fields that may be absent from the document. -/
structure RawDoc where
  _id : DocId
  title : Option String := none
  fullplot : Option String := none
  writers : Option (List String) := none
  cast : Option (List String) := none
  rated : Option String := none
  genres : Option (List String) := none
  year : Option Int := none
  score : Option ℚ := none
deriving DecidableEq

/-- Model of `SearchQuery` (pydantic model, lines 18-23 of the source). -/
structure SearchQuery where
  query : String
  top_k : Nat := 5
  year_gt : Option Int := none
  genre : Option String := none
  type : String := "vector"
deriving DecidableEq

/-- Model of `SearchResult` (pydantic model, lines 25-36 of the source).
All construction sites fill every field, using `.get(..., default)`
defaults for missing document fields. -/
structure SearchResult where
  _id : DocId
  title : String
  fullplot : String
  writers : List String
  cast : List String
  rated : String
  genres : List String
  year : Option Int
  score : ℚ
deriving DecidableEq

/-- The `filters` dict built at lines 51-55: at most a
`{"year": {"$gt": n}}` entry and a `{"genres": g}` entry. -/
structure Filters where
  year_gt : Option Int := none
  genres : Option String := none
deriving DecidableEq

/-- Python truthiness of the `filters` dict: falsy iff empty. -/
def Filters.isEmpty (f : Filters) : Bool :=
  f.year_gt.isNone && f.genres.isNone

/-- Lines 51-55: `filters` construction. Python `if query.year_gt:`
is false for `None` and for `0`; `if query.genre:` is false for `None`
and for the empty string. -/
def build_filters (q : SearchQuery) : Filters :=
  { year_gt :=
      match q.year_gt with
      | some n => if n = 0 then none else some n
      | none => none
    genres :=
      match q.genre with
      | some g => if g = "" then none else some g
      | none => none }

/-- One aggregation-pipeline stage, as built by `build_pipeline`.
`empty` is the literal `{}` placeholder of line 83. -/
inductive Stage where
  | vectorSearch (index : String) (path : String) (filter : Filters)
      (queryVector : List ℚ) (numCandidates : Nat) (limit : Nat)
  | search (index : String) (queryText : String) (path : List String)
      (fuzzyMaxEdits : Nat)
  | matchStage (filter : Filters)
  | project (scoreMeta : String)
  | limit (n : Nat)
  | empty
deriving DecidableEq

/-- Python truthiness of a stage dict: every real stage is a non-empty
dict (truthy); the `{}` placeholder is falsy. -/
def Stage.truthy : Stage → Bool
  | Stage.empty => false
  | _ => true

/-- Model of `build_pipeline` (lines 50-99): builds the vector or the text
pipeline, or raises `ValueError("Invalid search type")` for any other
mode. The text pipeline inserts `{}` in place of the `$match` stage when
`filters` is empty and then drops falsy stages
(`[stage for stage in text_pipeline if stage]`). -/
def build_pipeline (q : SearchQuery) (embedding : List ℚ) :
    Except String (List Stage) :=
  let filters := build_filters q
  let vector_pipeline : List Stage :=
    [Stage.vectorSearch "vector_index" "embedding" filters embedding
       (q.top_k * 20) q.top_k,
     Stage.project "vectorSearchScore"]
  let text_pipeline : List Stage :=
    [Stage.search "default" q.query ["fullplot", "genres", "title"] 2,
     if filters.isEmpty then Stage.empty else Stage.matchStage filters,
     Stage.project "searchScore",
     Stage.limit q.top_k]
  if q.type = "vector" then Except.ok vector_pipeline
  else if q.type = "text" then Except.ok (text_pipeline.filter Stage.truthy)
  else Except.error "Invalid search type"

/-- An entry of the `normalized` / `result_map` dicts:
`{"doc": ..., "score": ...}`. -/
structure ScoredEntry where
  doc : RawDoc
  score : ℚ
deriving DecidableEq

/-- The `1e-6` guard of line 171. -/
def eps : ℚ := 1 / 1000000

/-- Python `dict` assignment/update at key `k`: if the key is present,
its entry keeps its position and becomes `upd` of the old value;
otherwise `(k, ins)` is appended (insertion order). -/
def dictUpsert {α : Type} (m : List (DocId × α)) (k : DocId)
    (upd : α → α) (ins : α) : List (DocId × α) :=
  if m.any (fun p => decide (p.1 = k)) then
    m.map (fun p => if p.1 = k then (p.1, upd p.2) else p)
  else m ++ [(k, ins)]

/-- Python `dict` lookup (first — and for our dicts only — entry with
the given key). -/
def dlookup {α : Type} (m : List (DocId × α)) (k : DocId) : Option α :=
  (m.find? (fun p => decide (p.1 = k))).map Prod.snd

/-- Python `min` over a non-empty list (the `[]` case is never reached
by `normalize_scores`, which guards on emptiness first). -/
def listMinD : List ℚ → ℚ
  | [] => 0
  | x :: xs => xs.foldl min x

/-- Python `max` over a non-empty list (same remark). -/
def listMaxD : List ℚ → ℚ
  | [] => 0
  | x :: xs => xs.foldl max x

/-- Model of `normalize_scores` (lines 165-179). A missing score field reads as
`0.0` (`r.get(score_field, 0.0)`), both in the min/max pass and per
document; the result dict is keyed by `doc["_id"]`. -/
def normalize_scores (results : List RawDoc) : List (DocId × ScoredEntry) :=
  if results.isEmpty then []
  else
    let scores := results.map (fun r => r.score.getD 0)
    let min_score := listMinD scores
    let max_score := listMaxD scores
    let range_score := max_score - min_score + eps
    results.foldl
      (fun normalized doc =>
        dictUpsert normalized doc._id
          (fun _ => ⟨doc, (doc.score.getD 0 - min_score) / range_score⟩)
          ⟨doc, (doc.score.getD 0 - min_score) / range_score⟩)
      []

/-- Weight `vector_weight` (line 116). -/
def vector_weight : ℚ := 6 / 10

/-- Weight `text_weight` (line 117). -/
def text_weight : ℚ := 4 / 10

/-- The two merge passes over `result_map` (lines 113-128): the vector
pass assigns `{"doc": v["doc"], "score": v["score"] * 0.6}`; the text
pass adds `t["score"] * 0.4` to an existing entry's score (leaving its
doc alone) or inserts `{"doc": t["doc"], "score": t["score"] * 0.4}`. -/
def merge_results (vector_scores text_scores : List (DocId × ScoredEntry)) :
    List (DocId × ScoredEntry) :=
  let result_map : List (DocId × ScoredEntry) :=
    vector_scores.foldl
      (fun m p =>
        dictUpsert m p.1
          (fun _ => ⟨p.2.doc, p.2.score * vector_weight⟩)
          ⟨p.2.doc, p.2.score * vector_weight⟩)
      []
  text_scores.foldl
    (fun m p =>
      dictUpsert m p.1
        (fun e => ⟨e.doc, e.score + p.2.score * text_weight⟩)
        ⟨p.2.doc, p.2.score * text_weight⟩)
    result_map

/-- The ordering of line 131 (`key=lambda x: x["score"], reverse=True`):
`a` precedes `b` iff `b`'s score is at most `a`'s. -/
def scoreGe (a b : ScoredEntry) : Prop := b.score ≤ a.score

instance : DecidableRel scoreGe :=
  fun a b => inferInstanceAs (Decidable (b.score ≤ a.score))

instance : IsTotal ScoredEntry scoreGe := ⟨fun a b => le_total b.score a.score⟩

instance : IsTrans ScoredEntry scoreGe := ⟨fun _ _ _ h₁ h₂ => le_trans h₂ h₁⟩

/-- The `SearchResult(...)` construction of lines 133-143 / 153-163:
display fields with `.get` defaults, plus a score. -/
def searchResultOfDoc (doc : RawDoc) (score : ℚ) : SearchResult :=
  { _id := doc._id
    title := doc.title.getD ""
    fullplot := doc.fullplot.getD ""
    genres := doc.genres.getD []
    year := doc.year
    score := score
    writers := doc.writers.getD []
    cast := doc.cast.getD []
    rated := doc.rated.getD "" }

/-- The pure part of `hybrid_search` (lines 109-143), taking the two
already-retrieved raw result sets: normalize each, merge with weights,
stable-sort descending by score, truncate to `top_k`, build
`SearchResult`s. -/
def hybrid_merge (top_k : Nat) (vector_results text_results : List RawDoc) :
    List SearchResult :=
  let vector_scores := normalize_scores vector_results
  let text_scores := normalize_scores text_results
  let result_map := merge_results vector_scores text_scores
  let sorted_docs := List.insertionSort scoreGe (result_map.map Prod.snd)
  (sorted_docs.take top_k).map (fun d => searchResultOfDoc d.doc d.score)

/-- Model of `hybrid_search` (lines 101-143): build both pipelines with the mode
overridden, run each against the store, then merge. Both
`build_pipeline` calls succeed by construction, so the fallback branch
is unreachable. -/
def hybrid_search (q : SearchQuery) (embedding : List ℚ)
    (aggregate : List Stage → List RawDoc) : List SearchResult :=
  match build_pipeline { q with type := "vector" } embedding,
        build_pipeline { q with type := "text" } embedding with
  | Except.ok vp, Except.ok tp =>
      hybrid_merge q.top_k (aggregate vp) (aggregate tp)
  | _, _ => []

/-- The per-document mapping of lines 153-163: a missing score field
becomes `0.0` (`doc.get("score", 0.0)`). -/
def resultOfRaw (doc : RawDoc) : SearchResult :=
  searchResultOfDoc doc (doc.score.getD 0)

/-- Model of `search_documents` (lines 145-163), with the store's `aggregate`
passed in explicitly. The second component counts the retrieval
(`collection.aggregate`) calls performed: 2 in hybrid mode, 1 in a
single mode, 0 when `build_pipeline` raises. -/
def search_documents (q : SearchQuery) (embedding : List ℚ)
    (aggregate : List Stage → List RawDoc) :
    Except String (List SearchResult) × Nat :=
  if q.type = "hybrid" then
    (Except.ok (hybrid_search q embedding aggregate), 2)
  else
    match build_pipeline q embedding with
    | Except.error e => (Except.error e, 0)
    | Except.ok pipeline =>
        (Except.ok ((aggregate pipeline).map resultOfRaw), 1)

/-- The list of raw scores `normalize_scores` works over
(`[r.get(score_field, 0.0) for r in results]`). -/
def rawScores (results : List RawDoc) : List ℚ :=
  results.map fun r => r.score.getD 0

/-- The normalized score `normalize_scores` computes for document `d`
within the result set `results`. -/
def normScore (results : List RawDoc) (d : RawDoc) : ℚ :=
  (d.score.getD 0 - listMinD (rawScores results)) /
    (listMaxD (rawScores results) - listMinD (rawScores results) + eps)

/-- Spec scenario document A: vector raw score 0.9. -/
def docA : RawDoc := { _id := 1, title := some "A", score := some (9 / 10) }

/-- Spec scenario document B as returned by the vector leg: raw score 0.5. -/
def docB : RawDoc := { _id := 2, title := some "B", score := some (5 / 10) }

/-- Spec scenario document B as returned by the text leg: raw score 0.8. -/
def docBt : RawDoc := { _id := 2, title := some "B", score := some (8 / 10) }

/-- Spec scenario document C: text raw score 0.2. -/
def docC : RawDoc := { _id := 3, title := some "C", score := some (2 / 10) }

/-- Counterexample document with raw score 0. -/
def cexLo : RawDoc := { _id := 1, score := some 0 }

/-- Counterexample document with raw score 1e-6 (the set's maximum). -/
def cexHi : RawDoc := { _id := 2, score := some (1 / 1000000) }

/-- A document whose score field is absent. -/
def cexMiss : RawDoc := { _id := 3 }

end MovieService

namespace MovieService

theorem dlookup_nil {α : Type} (k : DocId) :
    dlookup ([] : List (DocId × α)) k = none := rfl

theorem find?_eq_none_of_not_any {α : Type} (m : List (DocId × α))
    (k : DocId) (h : ¬ (m.any fun p => decide (p.1 = k)) = true) :
    m.find? (fun p => decide (p.1 = k)) = none := by
  cases hf : m.find? (fun p => decide (p.1 = k)) with
  | none => rfl
  | some q =>
    have hq := List.find?_some hf
    have hmem := List.mem_of_find?_eq_some hf
    exact absurd (List.any_eq_true.2 ⟨q, hmem, hq⟩) h

theorem dlookup_eq_none_of_not_any {α : Type} (m : List (DocId × α))
    (k : DocId) (h : ¬ (m.any fun p => decide (p.1 = k)) = true) :
    dlookup m k = none := by
  unfold dlookup
  rw [find?_eq_none_of_not_any m k h]
  rfl

theorem find?_map_update {α : Type} (m : List (DocId × α)) (k : DocId) (upd : α → α) :
    (m.map fun p => if p.1 = k then (p.1, upd p.2) else p).find?
        (fun p => decide (p.1 = k)) =
      (m.find? (fun p => decide (p.1 = k))).map (fun p => (p.1, upd p.2)) := by
  induction m with
  | nil => rfl
  | cons p m ih =>
    by_cases h : p.1 = k
    · simp [List.find?_cons, h]
    · simp only [List.map_cons, if_neg h, List.find?_cons, decide_eq_false h]
      exact ih

theorem find?_map_update_ne {α : Type} (m : List (DocId × α)) (k k' : DocId)
    (upd : α → α) (h : k' ≠ k) :
    (m.map fun p => if p.1 = k then (p.1, upd p.2) else p).find?
        (fun p => decide (p.1 = k')) =
      m.find? (fun p => decide (p.1 = k')) := by
  induction m with
  | nil => rfl
  | cons p m ih =>
    by_cases hk : p.1 = k
    · have hne : ¬ p.1 = k' := fun hcon => h ((hk.symm.trans hcon).symm)
      have hne' : ¬ ((p.1, upd p.2) : DocId × α).1 = k' := hne
      simp only [List.map_cons, if_pos hk, List.find?_cons, decide_eq_false hne,
        decide_eq_false hne']
      exact ih
    · by_cases hk' : p.1 = k'
      · simp only [List.map_cons, if_neg hk, List.find?_cons, decide_eq_true hk']
      · simp only [List.map_cons, if_neg hk, List.find?_cons, decide_eq_false hk']
        exact ih

theorem dlookup_dictUpsert_self {α : Type} (m : List (DocId × α)) (k : DocId)
    (upd : α → α) (ins : α) :
    dlookup (dictUpsert m k upd ins) k =
      some (match dlookup m k with
            | some v => upd v
            | none => ins) := by
  unfold dictUpsert
  by_cases h : (m.any fun p => decide (p.1 = k)) = true
  · rw [if_pos h]
    unfold dlookup
    rw [find?_map_update]
    obtain ⟨p, hp, hpk⟩ := List.any_eq_true.1 h
    have hfind : (m.find? fun p => decide (p.1 = k)).isSome :=
      List.find?_isSome.2 ⟨p, hp, hpk⟩
    obtain ⟨q, hq⟩ := Option.isSome_iff_exists.1 hfind
    simp [hq]
  · rw [if_neg h]
    have hfnone := find?_eq_none_of_not_any m k h
    unfold dlookup
    rw [List.find?_append, hfnone]
    simp [List.find?_cons]

theorem dlookup_dictUpsert_ne {α : Type} (m : List (DocId × α)) (k k' : DocId)
    (upd : α → α) (ins : α) (h : k' ≠ k) :
    dlookup (dictUpsert m k upd ins) k' = dlookup m k' := by
  unfold dictUpsert
  by_cases hany : (m.any fun p => decide (p.1 = k)) = true
  · rw [if_pos hany]
    unfold dlookup
    rw [find?_map_update_ne m k k' upd h]
  · rw [if_neg hany]
    unfold dlookup
    rw [List.find?_append]
    have hsingle : ([(k, ins)].find? fun p => decide (p.1 = k')) = none := by
      have hne : ¬ (k = k') := fun hcon => h hcon.symm
      simp [List.find?_cons, hne]
    rw [hsingle]
    cases hfind : m.find? (fun p => decide (p.1 = k')) with
    | none => rfl
    | some q => rfl

theorem mem_dictUpsert {α : Type} (m : List (DocId × α)) (k : DocId)
    (upd : α → α) (ins : α) (p : DocId × α) (hp : p ∈ dictUpsert m k upd ins) :
    p ∈ m ∨ (∃ q ∈ m, q.1 = k ∧ p = (q.1, upd q.2)) ∨ p = (k, ins) := by
  unfold dictUpsert at hp
  by_cases h : (m.any fun p => decide (p.1 = k)) = true
  · rw [if_pos h] at hp
    obtain ⟨q, hq, hpq⟩ := List.mem_map.1 hp
    by_cases hqk : q.1 = k
    · right; left; exact ⟨q, hq, hqk, by rw [← hpq, if_pos hqk]⟩
    · left
      rw [← hpq, if_neg hqk]
      exact hq
  · rw [if_neg h] at hp
    rcases List.mem_append.1 hp with h1 | h2
    · left; exact h1
    · right; right; simpa using h2

theorem keys_dictUpsert_nodup {α : Type} (m : List (DocId × α)) (k : DocId)
    (upd : α → α) (ins : α) (h : (m.map Prod.fst).Nodup) :
    ((dictUpsert m k upd ins).map Prod.fst).Nodup := by
  unfold dictUpsert
  by_cases hany : (m.any fun p => decide (p.1 = k)) = true
  · rw [if_pos hany]
    have hkeys : (m.map fun p => if p.1 = k then (p.1, upd p.2) else p).map
        Prod.fst = m.map Prod.fst := by
      rw [List.map_map]
      apply List.map_congr_left
      intro p _
      by_cases hpk : p.1 = k
      · simp [hpk]
      · simp [hpk]
    rw [hkeys]
    exact h
  · rw [if_neg hany, List.map_append]
    have hk : k ∉ m.map Prod.fst := by
      intro hmem
      obtain ⟨q, hq, hqk⟩ := List.mem_map.1 hmem
      exact hany (List.any_eq_true.2 ⟨q, hq, by simp [hqk]⟩)
    simp [List.nodup_append, h, hk]

theorem nodup_keys_foldl_dictUpsert {α β : Type} (key : β → DocId)
    (updF : β → α → α) (insF : β → α) (l : List β) (m : List (DocId × α))
    (h : (m.map Prod.fst).Nodup) :
    ((l.foldl (fun acc b => dictUpsert acc (key b) (updF b) (insF b)) m).map
        Prod.fst).Nodup := by
  induction l generalizing m with
  | nil => exact h
  | cons b l ih => exact ih _ (keys_dictUpsert_nodup _ _ _ _ h)

theorem inv_foldl_dictUpsert {α β : Type} (key : β → DocId)
    (updF : β → α → α) (insF : β → α) (P : DocId → α → Prop)
    (l : List β) (m : List (DocId × α))
    (hm : ∀ p ∈ m, P p.1 p.2)
    (hins : ∀ b ∈ l, P (key b) (insF b))
    (hupd : ∀ b ∈ l, ∀ a, P (key b) a → P (key b) (updF b a)) :
    ∀ p ∈ l.foldl (fun acc b => dictUpsert acc (key b) (updF b) (insF b)) m,
      P p.1 p.2 := by
  induction l generalizing m with
  | nil => exact hm
  | cons b l ih =>
    apply ih
    · intro p hp
      rcases mem_dictUpsert _ _ _ _ p hp with h1 | ⟨q, hq, hqk, hpq⟩ | hpk
      · exact hm p h1
      · rw [hpq]
        exact hqk ▸ hupd b (List.mem_cons_self b l) q.2 (hqk ▸ hm q hq)
      · rw [hpk]
        exact hins b (List.mem_cons_self b l)
    · intro b' hb'
      exact hins b' (List.mem_cons_of_mem b hb')
    · intro b' hb'
      exact hupd b' (List.mem_cons_of_mem b hb')

theorem dlookup_foldl_dictUpsert {α β : Type} (key : β → DocId)
    (updF : β → α → α) (insF : β → α) (l : List β) (m : List (DocId × α))
    (k : DocId) (hl : (l.map key).Nodup) :
    dlookup (l.foldl (fun acc b => dictUpsert acc (key b) (updF b) (insF b)) m)
        k =
      match l.find? (fun b => decide (key b = k)) with
      | none => dlookup m k
      | some b =>
        match dlookup m k with
        | some a => some (updF b a)
        | none => some (insF b) := by
  induction l generalizing m with
  | nil => rfl
  | cons b l ih =>
    have hcons := List.nodup_cons.1 hl
    have hnd : (l.map key).Nodup := hcons.2
    by_cases hb : key b = k
    · subst hb
      have hfind : l.find? (fun b' => decide (key b' = key b)) = none := by
        apply List.find?_eq_none.2
        intro b' hb'
        simp only [decide_eq_true_eq]
        intro hcon
        exact hcons.1 (hcon ▸ List.mem_map_of_mem key hb')
      rw [List.foldl_cons, ih _ hnd, hfind, List.find?_cons, decide_eq_true rfl,
        dlookup_dictUpsert_self]
      cases dlookup m (key b) <;> rfl
    · have hlook : dlookup (dictUpsert m (key b) (updF b) (insF b)) k =
          dlookup m k :=
        dlookup_dictUpsert_ne m (key b) k _ _ (fun hcon => hb hcon.symm)
      rw [List.foldl_cons, ih _ hnd, List.find?_cons, decide_eq_false hb]
      simp only [hlook]

theorem find?_key_self {β : Type} (key : β → DocId) (l : List β)
    (hnd : (l.map key).Nodup) (b : β) (hb : b ∈ l) :
    l.find? (fun x => decide (key x = key b)) = some b := by
  induction l with
  | nil => cases hb
  | cons c l ih =>
    have hcons := List.nodup_cons.1 hnd
    rcases List.mem_cons.1 hb with rfl | hmem
    · rw [List.find?_cons, decide_eq_true rfl]
    · by_cases hc : key c = key b
      · exact absurd (hc ▸ List.mem_map_of_mem key hmem) hcons.1
      · rw [List.find?_cons, decide_eq_false hc]
        exact ih hcons.2 hmem

theorem foldl_min_le_init (xs : List ℚ) (a : ℚ) : xs.foldl min a ≤ a := by
  induction xs generalizing a with
  | nil => exact le_refl a
  | cons x xs ih => exact le_trans (ih (min a x)) (min_le_left a x)

theorem foldl_min_le_mem (xs : List ℚ) (a x : ℚ) (hx : x ∈ xs) :
    xs.foldl min a ≤ x := by
  induction xs generalizing a with
  | nil => cases hx
  | cons y ys ih =>
    rcases List.mem_cons.1 hx with rfl | hmem
    · exact le_trans (foldl_min_le_init ys (min a x)) (min_le_right a x)
    · exact ih _ hmem

theorem listMinD_le (l : List ℚ) (x : ℚ) (hx : x ∈ l) : listMinD l ≤ x := by
  cases l with
  | nil => cases hx
  | cons y ys =>
    rcases List.mem_cons.1 hx with rfl | hmem
    · exact foldl_min_le_init ys x
    · exact foldl_min_le_mem ys y x hmem

theorem init_le_foldl_max (xs : List ℚ) (a : ℚ) : a ≤ xs.foldl max a := by
  induction xs generalizing a with
  | nil => exact le_refl a
  | cons x xs ih => exact le_trans (le_max_left a x) (ih (max a x))

theorem mem_le_foldl_max (xs : List ℚ) (a x : ℚ) (hx : x ∈ xs) :
    x ≤ xs.foldl max a := by
  induction xs generalizing a with
  | nil => cases hx
  | cons y ys ih =>
    rcases List.mem_cons.1 hx with rfl | hmem
    · exact le_trans (le_max_right a x) (init_le_foldl_max ys (max a x))
    · exact ih _ hmem

theorem le_listMaxD (l : List ℚ) (x : ℚ) (hx : x ∈ l) : x ≤ listMaxD l := by
  cases l with
  | nil => cases hx
  | cons y ys =>
    rcases List.mem_cons.1 hx with rfl | hmem
    · exact init_le_foldl_max ys x
    · exact mem_le_foldl_max ys y x hmem

theorem foldl_min_mem (xs : List ℚ) (a : ℚ) :
    xs.foldl min a = a ∨ xs.foldl min a ∈ xs := by
  induction xs generalizing a with
  | nil => left; rfl
  | cons x xs ih =>
    rcases ih (min a x) with h | h
    · rcases min_choice a x with hc | hc
      · left; rw [List.foldl_cons, h, hc]
      · right; rw [List.foldl_cons, h, hc]; exact List.mem_cons_self x xs
    · right; exact List.mem_cons_of_mem x h

theorem listMinD_mem (l : List ℚ) (h : l ≠ []) : listMinD l ∈ l := by
  cases l with
  | nil => exact absurd rfl h
  | cons y ys =>
    rcases foldl_min_mem ys y with hy | hy
    · rw [listMinD, hy]; exact List.mem_cons_self y ys
    · exact List.mem_cons_of_mem y hy

theorem normalize_scores_eq (results : List RawDoc)
    (h : results.isEmpty = false) :
    normalize_scores results =
      results.foldl
        (fun normalized doc =>
          dictUpsert normalized doc._id
            (fun _ => ⟨doc, normScore results doc⟩)
            ⟨doc, normScore results doc⟩)
        [] := by
  unfold normalize_scores
  rw [h]
  rfl

theorem normalize_scores_lookup (results : List RawDoc)
    (hnd : (results.map RawDoc._id).Nodup) (d : RawDoc) (hd : d ∈ results) :
    dlookup (normalize_scores results) d._id = some ⟨d, normScore results d⟩ := by
  have hne : results.isEmpty = false := by
    cases results with
    | nil => cases hd
    | cons a l => rfl
  rw [normalize_scores_eq results hne]
  have hmain := dlookup_foldl_dictUpsert RawDoc._id
    (fun doc _ => (⟨doc, normScore results doc⟩ : ScoredEntry))
    (fun doc => (⟨doc, normScore results doc⟩ : ScoredEntry))
    results [] d._id hnd
  rw [find?_key_self RawDoc._id results hnd d hd] at hmain
  exact hmain

theorem normalize_scores_keys_nodup (results : List RawDoc) :
    ((normalize_scores results).map Prod.fst).Nodup := by
  unfold normalize_scores
  by_cases h : results.isEmpty = true
  · rw [if_pos h]
    exact List.nodup_nil
  · rw [if_neg h]
    exact nodup_keys_foldl_dictUpsert RawDoc._id _ _ results [] List.nodup_nil

theorem normalize_scores_ids (results : List RawDoc) :
    ∀ p ∈ normalize_scores results, p.2.doc._id = p.1 := by
  unfold normalize_scores
  by_cases h : results.isEmpty = true
  · rw [if_pos h]
    intro p hp
    cases hp
  · rw [if_neg h]
    exact inv_foldl_dictUpsert RawDoc._id _ _
      (fun k (e : ScoredEntry) => e.doc._id = k) results []
      (fun p hp => absurd hp (List.not_mem_nil p))
      (fun d _ => rfl)
      (fun d _ a _ => rfl)

theorem phase1_dlookup (vs : List (DocId × ScoredEntry))
    (hv : (vs.map Prod.fst).Nodup) (k : DocId) :
    dlookup (vs.foldl
        (fun m p =>
          dictUpsert m p.1
            (fun _ => (⟨p.2.doc, p.2.score * vector_weight⟩ : ScoredEntry))
            ⟨p.2.doc, p.2.score * vector_weight⟩)
        []) k =
      match vs.find? (fun p => decide (p.1 = k)) with
      | none => none
      | some p => some (⟨p.2.doc, p.2.score * vector_weight⟩ : ScoredEntry) := by
  have h := dlookup_foldl_dictUpsert Prod.fst
    (fun p _ => (⟨p.2.doc, p.2.score * vector_weight⟩ : ScoredEntry))
    (fun p => (⟨p.2.doc, p.2.score * vector_weight⟩ : ScoredEntry)) vs [] k hv
  refine h.trans ?_
  cases vs.find? (fun p => decide (p.1 = k)) <;> rfl

theorem phase2_dlookup (ts m₀ : List (DocId × ScoredEntry))
    (ht : (ts.map Prod.fst).Nodup) (k : DocId) :
    dlookup (ts.foldl
        (fun m p =>
          dictUpsert m p.1
            (fun e : ScoredEntry => (⟨e.doc, e.score + p.2.score * text_weight⟩ : ScoredEntry))
            ⟨p.2.doc, p.2.score * text_weight⟩)
        m₀) k =
      match ts.find? (fun p => decide (p.1 = k)), dlookup m₀ k with
      | none, r => r
      | some p, some e => some (⟨e.doc, e.score + p.2.score * text_weight⟩ : ScoredEntry)
      | some p, none => some (⟨p.2.doc, p.2.score * text_weight⟩ : ScoredEntry) := by
  have h := dlookup_foldl_dictUpsert Prod.fst
    (fun p e => (⟨e.doc, e.score + p.2.score * text_weight⟩ : ScoredEntry))
    (fun p => (⟨p.2.doc, p.2.score * text_weight⟩ : ScoredEntry)) ts m₀ k ht
  refine h.trans ?_
  cases ts.find? (fun p => decide (p.1 = k)) <;> cases dlookup m₀ k <;> rfl

theorem merge_results_keys_nodup (vs ts : List (DocId × ScoredEntry)) :
    ((merge_results vs ts).map Prod.fst).Nodup := by
  unfold merge_results
  exact nodup_keys_foldl_dictUpsert Prod.fst _ _ ts _
    (nodup_keys_foldl_dictUpsert Prod.fst _ _ vs [] List.nodup_nil)

theorem merge_results_ids (vs ts : List (DocId × ScoredEntry))
    (hvids : ∀ p ∈ vs, p.2.doc._id = p.1)
    (htids : ∀ p ∈ ts, p.2.doc._id = p.1) :
    ∀ p ∈ merge_results vs ts, p.2.doc._id = p.1 := by
  unfold merge_results
  refine inv_foldl_dictUpsert Prod.fst _ _ (fun k (e : ScoredEntry) => e.doc._id = k) ts _
    ?_ ?_ ?_
  · exact inv_foldl_dictUpsert Prod.fst _ _ (fun k (e : ScoredEntry) => e.doc._id = k) vs []
      (fun p hp => absurd hp (List.not_mem_nil p))
      (fun p hp => hvids p hp)
      (fun p hp a _ => hvids p hp)
  · exact fun p hp => htids p hp
  · exact fun p _ a ha => ha

theorem hybrid_merge_length (top_k : Nat) (vres tres : List RawDoc) :
    (hybrid_merge top_k vres tres).length ≤ top_k := by
  simp only [hybrid_merge, List.length_map, List.length_take]
  exact min_le_left _ _

theorem hybrid_merge_nodup (top_k : Nat) (vres tres : List RawDoc) :
    ((hybrid_merge top_k vres tres).map SearchResult._id).Nodup := by
  simp only [hybrid_merge, List.map_map]
  show ((List.take top_k (List.insertionSort scoreGe
      ((merge_results (normalize_scores vres) (normalize_scores tres)).map
        Prod.snd))).map (fun d : ScoredEntry => d.doc._id)).Nodup
  have hids := merge_results_ids (normalize_scores vres) (normalize_scores tres)
    (normalize_scores_ids vres) (normalize_scores_ids tres)
  have hkeys := merge_results_keys_nodup (normalize_scores vres)
    (normalize_scores tres)
  have hvals : ((merge_results (normalize_scores vres)
      (normalize_scores tres)).map (fun p => p.2.doc._id)).Nodup := by
    rw [List.map_congr_left hids]
    exact hkeys
  have hperm : ((List.insertionSort scoreGe
      ((merge_results (normalize_scores vres) (normalize_scores tres)).map
        Prod.snd)).map (fun d : ScoredEntry => d.doc._id)).Perm
      (((merge_results (normalize_scores vres) (normalize_scores tres)).map
        Prod.snd).map (fun d : ScoredEntry => d.doc._id)) :=
    (List.perm_insertionSort scoreGe _).map _
  have hsortnd : ((List.insertionSort scoreGe
      ((merge_results (normalize_scores vres) (normalize_scores tres)).map
        Prod.snd)).map (fun d : ScoredEntry => d.doc._id)).Nodup := by
    refine hperm.nodup_iff.2 ?_
    rw [List.map_map]
    exact hvals
  exact List.Nodup.sublist ((List.take_sublist _ _).map _) hsortnd

theorem hybrid_merge_sorted (top_k : Nat) (vres tres : List RawDoc) :
    List.Pairwise (fun a b : SearchResult => b.score ≤ a.score)
      (hybrid_merge top_k vres tres) := by
  simp only [hybrid_merge]
  rw [List.pairwise_map]
  apply List.Pairwise.sublist (List.take_sublist _ _)
  exact List.sorted_insertionSort scoreGe
    ((merge_results (normalize_scores vres) (normalize_scores tres)).map
      Prod.snd)

/-- Claim C8: applying the score normalizer to an empty result set yields
the empty mapping (and, the normalizer being a total function of its
input, it cannot fault). -/
theorem normalize_scores_empty : normalize_scores [] = [] := rfl

/-- Claim C5: for every mode string other than "vector", "text" and
"hybrid", the top-level dispatch returns the `ValueError("Invalid search
type")` raised by `build_pipeline` (the spec's `InvalidModeError`) and
performs zero retrieval calls against the store. -/
theorem invalid_mode_errors_without_retrieval (q : SearchQuery)
    (embedding : List ℚ) (aggregate : List Stage → List RawDoc)
    (h1 : q.type ≠ "vector") (h2 : q.type ≠ "text") (h3 : q.type ≠ "hybrid") :
    search_documents q embedding aggregate =
      (Except.error "Invalid search type", 0) := by
  simp only [search_documents, build_pipeline, if_neg h1, if_neg h2, if_neg h3]

/-- Witness for claim C5: the invalid mode "fuzzy" errors out with no
retrieval calls. -/
theorem invalid_mode_errors_without_retrieval_witness :
    search_documents { query := "movie", type := "fuzzy" } [] (fun _ => []) =
      (Except.error "Invalid search type", 0) :=
  invalid_mode_errors_without_retrieval _ _ _ (by decide) (by decide)
    (by decide)

/-- Claim C6: a text pipeline built from a request with no year bound and
no genre has no filter stage at all: it is exactly search-project-limit,
and no member of it is a `$match` stage. -/
theorem text_pipeline_no_filter_stage (q : SearchQuery) (embedding : List ℚ)
    (htype : q.type = "text") (hyear : q.year_gt = none)
    (hgenre : q.genre = none) :
    build_pipeline q embedding =
      Except.ok [Stage.search "default" q.query ["fullplot", "genres", "title"] 2,
        Stage.project "searchScore", Stage.limit q.top_k] ∧
    ∀ s ∈ [Stage.search "default" q.query ["fullplot", "genres", "title"] 2,
        Stage.project "searchScore", Stage.limit q.top_k],
      ∀ f : Filters, s ≠ Stage.matchStage f := by
  constructor
  · have hne : q.type ≠ "vector" := by rw [htype]; decide
    simp only [build_pipeline, build_filters, hyear, hgenre, Filters.isEmpty,
      if_neg hne, if_pos htype]
    rfl
  · intro s hs f
    rcases List.mem_cons.1 hs with rfl | hs
    · simp
    rcases List.mem_cons.1 hs with rfl | hs
    · simp
    rcases List.mem_cons.1 hs with rfl | hs
    · simp
    · cases hs

/-- Witness for claim C6 at a concrete text request with no filters. -/
theorem text_pipeline_no_filter_stage_witness :
    build_pipeline ({ query := "space", type := "text" } : SearchQuery) [] =
      Except.ok [Stage.search "default" "space" ["fullplot", "genres", "title"] 2,
        Stage.project "searchScore", Stage.limit 5] ∧
    ∀ s ∈ [Stage.search "default" "space" ["fullplot", "genres", "title"] 2,
        Stage.project "searchScore", Stage.limit 5],
      ∀ f : Filters, s ≠ Stage.matchStage f :=
  text_pipeline_no_filter_stage { query := "space", type := "text" } []
    rfl rfl rfl

/-- Claim C9: a year bound of 0 and an empty-string genre are falsy in
Python and are silently dropped: the built pipeline is identical to the
one with the filter absent, and the derived filter set carries a year
(resp. genre) predicate exactly when `year_gt` is present and nonzero
(resp. `genre` is present and non-empty). -/
theorem falsy_filters_dropped (q : SearchQuery) (embedding : List ℚ) :
    build_pipeline { q with year_gt := some 0 } embedding =
      build_pipeline { q with year_gt := none } embedding ∧
    build_pipeline { q with genre := some "" } embedding =
      build_pipeline { q with genre := none } embedding ∧
    ((build_filters q).year_gt ≠ none ↔ ∃ n : Int, q.year_gt = some n ∧ n ≠ 0) ∧
    ((build_filters q).genres ≠ none ↔ ∃ g : String, q.genre = some g ∧ g ≠ "") := by
  refine ⟨?_, ?_, ?_, ?_⟩
  · simp [build_pipeline, build_filters]
  · simp [build_pipeline, build_filters]
  · cases hy : q.year_gt with
    | none => simp [build_filters, hy]
    | some n =>
      by_cases hn : n = 0
      · subst hn
        simp [build_filters, hy]
      · simp [build_filters, hy, hn]
  · cases hg : q.genre with
    | none => simp [build_filters, hg]
    | some g =>
      by_cases hgg : g = ""
      · subst hgg
        simp [build_filters, hg]
      · simp [build_filters, hg, hgg]

/-- Claim C1: merging two normalized result sets (mappings with distinct
document identities, as `normalize_scores` produces) yields, per
identity, the score 0.6·vector + 0.4·text, a term being dropped (zero
contribution) when the identity is missing from that side; when the
identity is in both sets, the merged record keeps the vector-sourced
document (the text pass updates only the score). -/
theorem hybrid_weighted_merge_spec (vs ts : List (DocId × ScoredEntry))
    (hv : (vs.map Prod.fst).Nodup) (ht : (ts.map Prod.fst).Nodup)
    (k : DocId) :
    dlookup (merge_results vs ts) k =
      match dlookup vs k, dlookup ts k with
      | some v, some t =>
          some ⟨v.doc, v.score * vector_weight + t.score * text_weight⟩
      | some v, none => some ⟨v.doc, v.score * vector_weight⟩
      | none, some t => some ⟨t.doc, t.score * text_weight⟩
      | none, none => none := by
  simp only [merge_results]
  rw [phase2_dlookup ts _ ht k, phase1_dlookup vs hv k]
  simp only [dlookup]
  cases vs.find? (fun p => decide (p.1 = k)) <;>
    cases ts.find? (fun p => decide (p.1 = k)) <;> rfl

/-- Witness for claim C1 at concrete singleton normalized sets sharing
one identity. -/
theorem hybrid_weighted_merge_spec_witness :
    (([(1, (⟨docA, 1⟩ : ScoredEntry))].map Prod.fst).Nodup ∧
      ([(1, (⟨docBt, 1 / 2⟩ : ScoredEntry))].map Prod.fst).Nodup) ∧
    dlookup (merge_results [(1, ⟨docA, 1⟩)] [(1, ⟨docBt, 1 / 2⟩)]) 1 =
      match dlookup [(1, (⟨docA, 1⟩ : ScoredEntry))] 1,
            dlookup [(1, (⟨docBt, 1 / 2⟩ : ScoredEntry))] 1 with
      | some v, some t =>
          some ⟨v.doc, v.score * vector_weight + t.score * text_weight⟩
      | some v, none => some ⟨v.doc, v.score * vector_weight⟩
      | none, some t => some ⟨t.doc, t.score * text_weight⟩
      | none, none => none :=
  ⟨⟨List.nodup_singleton 1, List.nodup_singleton 1⟩,
    hybrid_weighted_merge_spec [(1, ⟨docA, 1⟩)] [(1, ⟨docBt, 1 / 2⟩)]
      (List.nodup_singleton 1) (List.nodup_singleton 1) 1⟩

/-- Claim C3: for every request and every pair of retrieval result sets
(equivalently, every store behavior `aggregate`), the hybrid result list
has length at most the requested K and contains no two results with the
same document identity. -/
theorem hybrid_results_bounded_nodup (q : SearchQuery) (embedding : List ℚ)
    (aggregate : List Stage → List RawDoc) :
    (hybrid_search q embedding aggregate).length ≤ q.top_k ∧
    ((hybrid_search q embedding aggregate).map SearchResult._id).Nodup :=
  ⟨hybrid_merge_length q.top_k _ _, hybrid_merge_nodup q.top_k _ _⟩

/-- Claim C4: the hybrid result list is sorted by combined score in
non-increasing order, for every request and store behavior. -/
theorem hybrid_results_sorted (q : SearchQuery) (embedding : List ℚ)
    (aggregate : List Stage → List RawDoc) :
    List.Pairwise (fun a b : SearchResult => b.score ≤ a.score)
      (hybrid_search q embedding aggregate) :=
  hybrid_merge_sorted q.top_k _ _

/-- Claim C2 (amended): for every non-empty result set with distinct
identities, each document is assigned (raw - min)/(max - min + 1e-6)
with min/max over the whole set; every normalized score lies in [0, 1];
a document carrying the maximum raw score is within 1e-6 of 1 provided
the raw-score range is at least 1 - 1e-6 (the unconditional version of
this clause is false, see the counterexample); when all raw scores are
equal, every normalized score is exactly 0. -/
theorem normalize_scores_formula_bounds (results : List RawDoc)
    (hnd : (results.map RawDoc._id).Nodup) (d : RawDoc) (hd : d ∈ results) :
    dlookup (normalize_scores results) d._id = some ⟨d, normScore results d⟩ ∧
    0 ≤ normScore results d ∧ normScore results d ≤ 1 ∧
    (d.score.getD 0 = listMaxD (rawScores results) →
      1 - eps ≤ listMaxD (rawScores results) - listMinD (rawScores results) →
      1 - eps ≤ normScore results d) ∧
    ((∀ r ∈ results, r.score.getD 0 = d.score.getD 0) →
      normScore results d = 0) := by
  have hmem : d.score.getD 0 ∈ rawScores results :=
    List.mem_map_of_mem (fun r => r.score.getD 0) hd
  have hmn : listMinD (rawScores results) ≤ d.score.getD 0 :=
    listMinD_le _ _ hmem
  have hmx : d.score.getD 0 ≤ listMaxD (rawScores results) :=
    le_listMaxD _ _ hmem
  have heps : (0 : ℚ) < eps := by norm_num [eps]
  have hrange : (0 : ℚ) < listMaxD (rawScores results) -
      listMinD (rawScores results) + eps := by linarith
  refine ⟨normalize_scores_lookup results hnd d hd, ?_, ?_, ?_, ?_⟩
  · exact div_nonneg (by linarith) hrange.le
  · rw [normScore, div_le_one hrange]
    linarith
  · intro hdmax hbig
    rw [normScore, hdmax, le_div_iff₀ hrange]
    nlinarith [mul_nonneg heps.le (sub_nonneg.2 hbig)]
  · intro hall
    have hne : rawScores results ≠ [] := by
      intro hcon
      rw [hcon] at hmem
      cases hmem
    obtain ⟨r, hr, hrmin⟩ := List.mem_map.1 (listMinD_mem _ hne)
    have hrmin' : r.score.getD 0 = listMinD (rawScores results) := hrmin
    rw [normScore, ← hrmin', hall r hr, sub_self, zero_div]

/-- Witness for claim C2 (amended) at the concrete two-document set with
raw scores 0 and 1e-6, instantiated at the first document. -/
theorem normalize_scores_formula_bounds_witness :
    dlookup (normalize_scores [cexLo, cexHi]) cexLo._id =
      some ⟨cexLo, normScore [cexLo, cexHi] cexLo⟩ ∧
    0 ≤ normScore [cexLo, cexHi] cexLo ∧
    normScore [cexLo, cexHi] cexLo ≤ 1 ∧
    (cexLo.score.getD 0 = listMaxD (rawScores [cexLo, cexHi]) →
      1 - eps ≤ listMaxD (rawScores [cexLo, cexHi]) -
        listMinD (rawScores [cexLo, cexHi]) →
      1 - eps ≤ normScore [cexLo, cexHi] cexLo) ∧
    ((∀ r ∈ [cexLo, cexHi], r.score.getD 0 = cexLo.score.getD 0) →
      normScore [cexLo, cexHi] cexLo = 0) :=
  normalize_scores_formula_bounds [cexLo, cexHi] (by decide) cexLo
    (List.mem_cons_self _ _)

/-- Claim C2 counterexample: with raw scores {0, 1e-6}, not all equal,
the document with the maximum raw score normalizes to 1/2, which is not
within 1e-6 of 1 — refuting the unconditional "max normalizes to 1
within epsilon tolerance" clause. -/
theorem normalize_max_far_from_one_cex :
    dlookup (normalize_scores [cexLo, cexHi]) 2 = some ⟨cexHi, 1 / 2⟩ ∧
    cexHi.score.getD 0 = listMaxD (rawScores [cexLo, cexHi]) ∧
    ¬ cexLo.score.getD 0 = cexHi.score.getD 0 ∧
    1 - normScore [cexLo, cexHi] cexHi > eps := by
  refine ⟨?_, ?_, ?_, ?_⟩
  · norm_num [normalize_scores, dictUpsert, dlookup, listMinD, listMaxD,
      rawScores, eps, cexLo, cexHi, min_def, max_def, List.find?_cons]
  · norm_num [listMaxD, rawScores, cexLo, cexHi, max_def]
  · norm_num [cexLo, cexHi]
  · norm_num [normScore, listMinD, listMaxD, rawScores, cexLo, cexHi,
      min_def, max_def, eps]

/-- Claim C7 counterexample: on the spec scenario input (vector scores
A:0.9, B:0.5; text scores B:0.8, C:0.2) the combined scores are NOT
exactly [0.6, 0.4, 0]: the normalization epsilon makes them slightly
smaller. -/
theorem hybrid_scenario_not_exact_cex :
    ¬ ((hybrid_merge 5 [docA, docB] [docBt, docC]).map SearchResult.score =
      [6 / 10, 4 / 10, 0]) := by
  norm_num [hybrid_merge, merge_results, normalize_scores, dictUpsert, dlookup,
    listMinD, listMaxD, rawScores, eps, vector_weight, text_weight,
    List.insertionSort, List.orderedInsert, scoreGe, searchResultOfDoc,
    min_def, max_def, docA, docB, docBt, docC]

/-- Claim C7 (amended): on the scenario input the hybrid merger returns
A, B, C in that order with exact combined scores 240000/400001 (within
1e-5 of 0.6), 240000/600001 (within 1e-5 of 0.4) and 0; requesting K = 2
yields exactly [A, B], dropping C. -/
theorem hybrid_scenario_weighted_order :
    (hybrid_merge 5 [docA, docB] [docBt, docC]).map
        (fun r => (r._id, r.score)) =
      [(1, 240000 / 400001), (2, 240000 / 600001), (3, 0)] ∧
    |(240000 / 400001 : ℚ) - 6 / 10| ≤ 1 / 100000 ∧
    |(240000 / 600001 : ℚ) - 4 / 10| ≤ 1 / 100000 ∧
    (hybrid_merge 2 [docA, docB] [docBt, docC]).map (fun r => r._id) =
      [1, 2] := by
  refine ⟨?_, ?_, ?_, ?_⟩
  · norm_num [hybrid_merge, merge_results, normalize_scores, dictUpsert,
      dlookup, listMinD, listMaxD, rawScores, eps, vector_weight, text_weight,
      List.insertionSort, List.orderedInsert, scoreGe, searchResultOfDoc,
      min_def, max_def, docA, docB, docBt, docC]
  · rw [abs_le]
    constructor <;> norm_num
  · rw [abs_le]
    constructor <;> norm_num
  · norm_num [hybrid_merge, merge_results, normalize_scores, dictUpsert,
      dlookup, listMinD, listMaxD, rawScores, eps, vector_weight, text_weight,
      List.insertionSort, List.orderedInsert, scoreGe, searchResultOfDoc,
      min_def, max_def, docA, docB, docBt, docC]

/-- Claim C10: a document lacking the score field is handled totally
rather than faulting: the normalizer takes its raw score to be 0 (and
that 0 enters the min/max pass, which runs over `rawScores`, where the
missing field reads as 0), and the single-mode result mapping likewise
scores such a document 0. -/
theorem missing_score_treated_as_zero (results : List RawDoc)
    (hnd : (results.map RawDoc._id).Nodup) (d : RawDoc) (hd : d ∈ results)
    (hmiss : d.score = none) :
    dlookup (normalize_scores results) d._id =
      some ⟨d, (0 - listMinD (rawScores results)) /
        (listMaxD (rawScores results) - listMinD (rawScores results) + eps)⟩ ∧
    (resultOfRaw d).score = 0 := by
  constructor
  · have h := normalize_scores_lookup results hnd d hd
    rw [h]
    simp only [normScore, hmiss, Option.getD_none]
  · simp only [resultOfRaw, searchResultOfDoc, hmiss, Option.getD_none]

/-- Witness for claim C10 at a concrete set whose first document has no
score field. -/
theorem missing_score_treated_as_zero_witness :
    dlookup (normalize_scores [cexMiss, cexLo]) cexMiss._id =
      some ⟨cexMiss, (0 - listMinD (rawScores [cexMiss, cexLo])) /
        (listMaxD (rawScores [cexMiss, cexLo]) -
          listMinD (rawScores [cexMiss, cexLo]) + eps)⟩ ∧
    (resultOfRaw cexMiss).score = 0 :=
  missing_score_treated_as_zero [cexMiss, cexLo] (by decide) cexMiss
    (List.mem_cons_self _ _) rfl

end MovieService
